import Mathlib

/-!
# Verification of the `ecu_diagnostics` FFI core

A shallow embedding of the data model and behaviour of the
`ecu_diagnostics` UDS-over-ISO-TP diagnostic client, as exposed through
`src/ffi/examples/cmake_project/src/ecu_diagnostics_ffi.hpp`.

The repository content under `src/` is the FFI header only (type and
entry-point declarations); the behaviour of the entry points lives in the
library crate, which is not part of the source tree.  Where a definition
embeds a declaration of the header it follows the header; where it models
behaviour absent from `src/` its doc comment starts with
`Modelled from the spec:` and follows the specification's words.

Machine bytes are modelled as `Nat` (all values produced stay below 256
where it matters); buffers as `List Nat`; fallible operations return
result codes or `Option`.
-/

namespace EcuDiag

/-! ## Enumerations of the header -/

/-- Result codes of the callback (driver) layer: `CallbackHandlerResult`
of the header. -/
inductive CallbackHandlerResult where
  | OK
  | ReadTimeout
  | WriteTimeout
  | APIError
  | CallbackAlreadyExists
  deriving DecidableEq, Repr

/-- Numeric value of each `CallbackHandlerResult` enumerator, as assigned
in the header. -/
def CallbackHandlerResult.toNat : CallbackHandlerResult → Nat
  | .OK => 0
  | .ReadTimeout => 2
  | .WriteTimeout => 3
  | .APIError => 4
  | .CallbackAlreadyExists => 5

/-- The five callback-layer enumerators, in header order. -/
def callbackHandlerResultList : List CallbackHandlerResult :=
  [.OK, .ReadTimeout, .WriteTimeout, .APIError, .CallbackAlreadyExists]

/-- Result codes of the diagnostic server layer: `DiagServerResult` of
the header. -/
inductive DiagServerResult where
  | OK
  | NotSupported
  | EmptyResponse
  | WrongMessage
  | ServerNotRunning
  | InvalidResponseLength
  | NoHandler
  | ServerAlreadyRunning
  | NoDiagnosticServer
  | ECUError
  | HandlerError
  | Todo
  deriving DecidableEq, Repr

/-- Numeric value of each `DiagServerResult` enumerator, as assigned in
the header. -/
def DiagServerResult.toNat : DiagServerResult → Nat
  | .OK => 0
  | .NotSupported => 1
  | .EmptyResponse => 2
  | .WrongMessage => 3
  | .ServerNotRunning => 4
  | .InvalidResponseLength => 5
  | .NoHandler => 6
  | .ServerAlreadyRunning => 7
  | .NoDiagnosticServer => 8
  | .ECUError => 98
  | .HandlerError => 99
  | .Todo => 100

/-- The twelve server-layer enumerators, in header order. -/
def diagServerResultList : List DiagServerResult :=
  [.OK, .NotSupported, .EmptyResponse, .WrongMessage, .ServerNotRunning,
   .InvalidResponseLength, .NoHandler, .ServerAlreadyRunning,
   .NoDiagnosticServer, .ECUError, .HandlerError, .Todo]

/-- The recognized UDS Service IDs: `enum class UDSCommand : uint8_t` of
the header. -/
inductive UDSCommand where
  | DiagnosticSessionControl
  | ECUReset
  | SecurityAccess
  | CommunicationControl
  | TesterPresent
  | AccessTimingParameters
  | SecuredDataTransmission
  | ControlDTCSettings
  | ResponseOnEvent
  | LinkControl
  | ReadDataByIdentifier
  | ReadMemoryByAddress
  | ReadScalingDataByIdentifier
  | ReadDataByPeriodicIdentifier
  | DynamicallyDefineDataIdentifier
  | WriteDataByIdentifier
  | WriteMemoryByAddress
  | ClearDiagnosticInformation
  | ReadDTCInformation
  | InputOutputControlByIdentifier
  | RoutineControl
  | RequestDownload
  | RequestUpload
  | TransferData
  | RequestTransferExit
  deriving DecidableEq, Repr

/-- Numeric (SID) value of each `UDSCommand` enumerator, as assigned in
the header (the header uses decimal literals: 16 = 0x10, etc.). -/
def UDSCommand.toNat : UDSCommand → Nat
  | .DiagnosticSessionControl => 16
  | .ECUReset => 17
  | .SecurityAccess => 39
  | .CommunicationControl => 40
  | .TesterPresent => 62
  | .AccessTimingParameters => 131
  | .SecuredDataTransmission => 132
  | .ControlDTCSettings => 133
  | .ResponseOnEvent => 134
  | .LinkControl => 135
  | .ReadDataByIdentifier => 34
  | .ReadMemoryByAddress => 35
  | .ReadScalingDataByIdentifier => 36
  | .ReadDataByPeriodicIdentifier => 42
  | .DynamicallyDefineDataIdentifier => 44
  | .WriteDataByIdentifier => 46
  | .WriteMemoryByAddress => 61
  | .ClearDiagnosticInformation => 20
  | .ReadDTCInformation => 25
  | .InputOutputControlByIdentifier => 47
  | .RoutineControl => 49
  | .RequestDownload => 52
  | .RequestUpload => 53
  | .TransferData => 54
  | .RequestTransferExit => 55

/-- The twenty-five Service-ID enumerators, in header order. -/
def udsCommandList : List UDSCommand :=
  [.DiagnosticSessionControl, .ECUReset, .SecurityAccess,
   .CommunicationControl, .TesterPresent, .AccessTimingParameters,
   .SecuredDataTransmission, .ControlDTCSettings, .ResponseOnEvent,
   .LinkControl, .ReadDataByIdentifier, .ReadMemoryByAddress,
   .ReadScalingDataByIdentifier, .ReadDataByPeriodicIdentifier,
   .DynamicallyDefineDataIdentifier, .WriteDataByIdentifier,
   .WriteMemoryByAddress, .ClearDiagnosticInformation,
   .ReadDTCInformation, .InputOutputControlByIdentifier,
   .RoutineControl, .RequestDownload, .RequestUpload, .TransferData,
   .RequestTransferExit]

/-! ## Structures of the header -/

/-- ISO-TP configuration options: `IsoTPSettings` of the header. -/
structure IsoTPSettings where
  block_size : Nat
  st_min : Nat
  extended_addressing : Bool
  pad_frame : Bool
  can_speed : Nat
  can_use_ext_addr : Bool
  deriving DecidableEq, Repr

/-- UDS server options: `UdsServerOptions` of the header. -/
structure UdsServerOptions where
  send_id : Nat
  recv_id : Nat
  read_timeout_ms : Nat
  write_timeout_ms : Nat
  global_tp_id : Nat
  tester_present_interval_ms : Nat
  tester_present_require_response : Bool
  deriving DecidableEq, Repr

/-- Payload sent to the UDS server: `UdsPayload` of the header.  The
header's `args_len` / `args_ptr` pair (a length and a pointer to that
many octets) is embedded as the list of those octets. -/
structure UdsPayload where
  sid : UDSCommand
  args : List Nat
  deriving DecidableEq, Repr

/-- Callback handler payload: `CallbackPayload` of the header.  The
header's `data_len` / `data` pair (`const uint8_t *`: a read-only view)
is embedded as the list of octets it designates. -/
structure CallbackPayload where
  addr : Nat
  data : List Nat
  deriving DecidableEq, Repr

/-! ## Driver callback signatures

The header's `BaseChannelCallbackHandler` is a table of function
pointers.  A driver may keep private mutable state, embedded here as a
state type `σ` threaded through each entry.  The parameter and result
types mirror the header's C signatures: a `CallbackPayload` passed by
value with a `const uint8_t *` data pointer is a pure input (the entry's
result contains no frame), while a `CallbackPayload *` out-parameter
shows up as an extra `CallbackPayload` in the result. -/

/-- Driver side of the header's `BaseChannelCallbackHandler`: one field
per function pointer, each threaded through driver-private state `σ`.
`write_bytes_callback` receives its `CallbackPayload` by value (data
pointer `const uint8_t *`), so its outputs are only a result code and
the driver's next state; `read_bytes_callback` receives
`CallbackPayload *`, so it additionally returns the descriptor it
filled in. -/
structure BaseChannelCallbackHandler (σ : Type) where
  open_callback : σ → CallbackHandlerResult × σ
  close_callback : σ → CallbackHandlerResult × σ
  write_bytes_callback : σ → CallbackPayload → Nat → CallbackHandlerResult × σ
  read_bytes_callback : σ → CallbackPayload → Nat → (CallbackHandlerResult × σ) × CallbackPayload
  clear_tx_callback : σ → CallbackHandlerResult × σ
  clear_rx_callback : σ → CallbackHandlerResult × σ
  set_ids_callback : σ → Nat → Nat → CallbackHandlerResult × σ

/-- Driver side of the header's `IsoTpChannelCallbackHandler`: the base
table plus the ISO-TP configuration hook. -/
structure IsoTpChannelCallbackHandler (σ : Type) where
  base : BaseChannelCallbackHandler σ
  set_iso_tp_cfg_callback : σ → IsoTPSettings → CallbackHandlerResult × σ

/-- Invocation of the driver's write callback on an outgoing frame, seen
from the core: the driver receives the frame by value (`const uint8_t *`
data), so the core's frame descriptor after the call is the one it
passed in; the driver contributes a result code and its own next
state. -/
def invokeWriteBytes {σ : Type} (d : BaseChannelCallbackHandler σ) (s : σ)
    (frame : CallbackPayload) (write_timeout_ms : Nat) :
    CallbackHandlerResult × σ × CallbackPayload :=
  let r := d.write_bytes_callback s frame write_timeout_ms
  (r.1, r.2, frame)

/-- Invocation of the driver's read callback on a caller-owned
descriptor, seen from the core: the driver receives a mutable
`CallbackPayload *` and the descriptor after the call is whatever the
driver wrote into it. -/
def invokeReadBytes {σ : Type} (d : BaseChannelCallbackHandler σ) (s : σ)
    (desc : CallbackPayload) (read_timeout_ms : Nat) :
    CallbackHandlerResult × σ × CallbackPayload :=
  let r := d.read_bytes_callback s desc read_timeout_ms
  (r.1.1, r.1.2, r.2)

/-! ## Server state machine

The behaviour of the `extern "C"` entry points lives in the library
crate, outside the repository's `src/` tree; it is modelled here from
the specification.  ECU traffic is modelled as the list of
transport-layer (already ISO-TP reassembled) messages the engine
receives on successive reads; exhaustion of that list is ECU silence
(driver read timeout). -/

/-- Modelled from the spec: one active server of the process-wide state
(`ActiveServer` holding the options and ISO-TP configuration fixed at
creation; transport handle, task handle, lock and ledger live in
`FfiState`). -/
structure ActiveServer where
  options : UdsServerOptions
  isotp_cfg : IsoTPSettings
  deriving DecidableEq, Repr

/-- Modelled from the spec: the process-wide state behind the C ABI —
whether a callback table is registered, the created servers (the
singleton invariant says this list never holds more than one), and the
NRC ledger `last_nrc`. -/
structure FfiState where
  callback_registered : Bool
  servers : List ActiveServer
  last_nrc : Nat
  deriving DecidableEq, Repr

/-- Modelled from the spec: a callback invocation the core performs on
the registered driver table, recorded abstractly for frame-condition
statements. -/
inductive CbEvent where
  | openEv
  | closeEv
  | setIdsEv (send recv : Nat)
  | setCfgEv (cfg : IsoTPSettings)
  deriving DecidableEq, Repr

/-- Modelled from the spec: `register_isotp_callback` — registers the
table; fails silently (state unchanged) if one is already
registered. -/
def register_isotp_callback (st : FfiState) : FfiState :=
  if st.callback_registered then st else { st with callback_registered := true }

/-- Modelled from the spec: `destroy_isotp_callback` — deletes the
registered table; no-op if none is registered. -/
def destroy_isotp_callback (st : FfiState) : FfiState :=
  { st with callback_registered := false }

/-- Modelled from the spec: `get_ecu_error_code` — returns the NRC
ledger. -/
def get_ecu_error_code (st : FfiState) : Nat :=
  st.last_nrc

/-- Modelled from the spec: `create_uds_server_over_isotp` — if a server
already exists, return `ServerAlreadyRunning` with no side effects and
no callback invocations; if no callback table is registered, `NoHandler`;
otherwise install the server and drive the callback table (`open`,
`set_ids`, `set_iso_tp_cfg`).  The third component records the callback
invocations performed. -/
def create_uds_server_over_isotp (st : FfiState) (settings : UdsServerOptions)
    (iso_tp_opts : IsoTPSettings) : DiagServerResult × FfiState × List CbEvent :=
  if st.servers ≠ [] then
    (.ServerAlreadyRunning, st, [])
  else if st.callback_registered = false then
    (.NoHandler, st, [])
  else
    (.OK, { st with servers := [⟨settings, iso_tp_opts⟩] },
     [.openEv, .setIdsEv settings.send_id settings.recv_id, .setCfgEv iso_tp_opts])

/-- Modelled from the spec: `destroy_uds_server` — stops the server and
closes the transport; safe no-op when no server exists. -/
def destroy_uds_server (st : FfiState) : FfiState × List CbEvent :=
  if st.servers = [] then (st, [])
  else ({ st with servers := [] }, [.closeEv])

/-- Outcome of the engine's receive wait: either a positive response
(whose argument bytes follow the ECU's own SID echo) or a server-layer
error together with the final value of the NRC ledger. -/
inductive WaitOutcome where
  | pos (body : List Nat)
  | err (r : DiagServerResult) (nrc : Nat)
  deriving DecidableEq, Repr

/-- Modelled from the spec: the receive wait of the request engine
(§4.3 step 5).  `sid` is the request SID, `nrc` the current ledger
value, and the list the successive messages received.  A `0x7F` message
stores its third octet in the ledger and, when that octet is `0x78`
(responsePending), restarts the wait; any other NRC is `ECUError`.  The
message `sid + 0x40 :: body` is the positive response, yielding `body`
(the response octets minus the leading SID echo) and clearing the
ledger.  Any other first octet is `WrongMessage`; silence is
`EmptyResponse`; a `0x7F` message shorter than three octets fails the
length check. -/
def awaitResponse (sid : Nat) (nrc : Nat) : List (List Nat) → WaitOutcome
  | [] => .err .EmptyResponse nrc
  | m :: rest =>
    match m with
    | [] => .err .EmptyResponse nrc
    | b :: body =>
      if b = 0x7F then
        match body with
        | _ :: n :: _ =>
          if n = 0x78 then awaitResponse sid n rest else .err .ECUError n
        | _ => .err .InvalidResponseLength nrc
      else if b = sid + 0x40 then .pos body
      else .err .WrongMessage nrc

/-- Modelled from the spec: `send_payload_uds` — requires a server;
without `response_require` returns `Ok` leaving the payload alone;
otherwise runs the receive wait, and on a positive response replaces the
caller's payload by one whose SID field is the request SID and whose
argument buffer is the response body, clearing the ledger; on any error
the payload is returned untouched and the ledger updated as the wait
determined. -/
def send_payload_uds (st : FfiState) (payload : UdsPayload)
    (response_require : Bool) (rx : List (List Nat)) :
    DiagServerResult × FfiState × UdsPayload :=
  if st.servers = [] then
    (.NoDiagnosticServer, st, payload)
  else if response_require = false then
    (.OK, { st with last_nrc := 0 }, payload)
  else
    match awaitResponse payload.sid.toNat st.last_nrc rx with
    | .pos body => (.OK, { st with last_nrc := 0 }, { sid := payload.sid, args := body })
    | .err r n => (r, { st with last_nrc := n }, payload)

/-- One call of the public interface, for statements quantifying over
call sequences. -/
inductive FfiOp where
  | registerCb
  | destroyCb
  | create (settings : UdsServerOptions) (iso_tp_opts : IsoTPSettings)
  | send (payload : UdsPayload) (response_require : Bool) (rx : List (List Nat))
  | destroyServer

/-- State transition of one public-interface call. -/
def stepOp (st : FfiState) : FfiOp → FfiState
  | .registerCb => register_isotp_callback st
  | .destroyCb => destroy_isotp_callback st
  | .create settings iso_tp_opts =>
      (create_uds_server_over_isotp st settings iso_tp_opts).2.1
  | .send payload response_require rx =>
      (send_payload_uds st payload response_require rx).2.1
  | .destroyServer => (destroy_uds_server st).1

/-- State after a sequence of public-interface calls. -/
def runOps (st : FfiState) (ops : List FfiOp) : FfiState :=
  ops.foldl stepOp st

/-! ## ISO-TP framing

Modelled from the spec §4.2.  A CAN frame is a list of at most 8 data
octets; with extended addressing a 1-byte address prefix sits inside the
payload before the PCI.  Flow-control frames travel from receiver to
sender and carry no message data — `block_size` and `st_min` govern FC
pacing only — so segmentation below produces the data-bearing frame
sequence (SF, or FF followed by CFs) and reassembly consumes it. -/

/-- Modelled from the spec: the ISO 15765-2 §6.5.5.5 interpretation of a
separation-time octet, in microseconds: `0x00`–`0x7F` denote 0–127
milliseconds, `0xF1`–`0xF9` denote 100–900 microseconds, all other
values are reserved. -/
def decodeStMin (v : Nat) : Option Nat :=
  if v ≤ 0x7F then some (v * 1000)
  else if 0xF1 ≤ v ∧ v ≤ 0xF9 then some ((v - 0xF0) * 100)
  else none

/-- Largest single-frame payload: 7 octets, or 6 with extended
addressing. -/
def sfMax (ext : Bool) : Nat := if ext then 6 else 7

/-- Data octets carried by a first frame: 6, or 5 with extended
addressing. -/
def ffDataLen (ext : Bool) : Nat := if ext then 5 else 6

/-- Data octets carried by a consecutive frame: 7, or 6 with extended
addressing. -/
def cfDataLen (ext : Bool) : Nat := if ext then 6 else 7

/-- Modelled from the spec: pad an outgoing frame with `0xCC` up to 8
octets when `pad_frame` is set. -/
def padTo8 (pad : Bool) (f : List Nat) : List Nat :=
  if pad then f ++ List.replicate (8 - f.length) 0xCC else f

/-- Modelled from the spec: extended addressing adds a 1-byte address
prefix inside the CAN payload. -/
def addrPrefix (ext : Bool) (addr : Nat) (f : List Nat) : List Nat :=
  if ext then addr :: f else f

/-- Modelled from the spec: the consecutive frames of a segmented
message — PCI `0x2N` with the 4-bit sequence number wrapping
1, 2, …, 15, 0, 1, … followed by the next chunk of data octets. -/
def mkConsecutiveFrames (cfg : IsoTPSettings) (addr seq : Nat)
    (rest : List Nat) : List (List Nat) :=
  if h : rest = [] then []
  else
    padTo8 cfg.pad_frame (addrPrefix cfg.extended_addressing addr
        ((0x20 + seq) :: rest.take (cfDataLen cfg.extended_addressing)))
      :: mkConsecutiveFrames cfg addr ((seq + 1) % 16)
          (rest.drop (cfDataLen cfg.extended_addressing))
termination_by rest.length
decreasing_by
  simp only [List.length_drop, cfDataLen]
  cases rest with
  | nil => exact absurd rfl h
  | cons a l => cases cfg.extended_addressing <;> simp <;> omega

/-- Modelled from the spec: the send path (§4.2.1) — a message of at
most `sfMax` octets becomes one single frame (PCI `0x0L`); a longer
message becomes a first frame (PCI `0x1L LL`, 12-bit total length,
carrying the first `ffDataLen` octets) followed by consecutive frames
starting at sequence number 1. -/
def segmentMsg (cfg : IsoTPSettings) (addr : Nat) (msg : List Nat) :
    List (List Nat) :=
  if msg.length ≤ sfMax cfg.extended_addressing then
    [padTo8 cfg.pad_frame (addrPrefix cfg.extended_addressing addr
      (msg.length :: msg))]
  else
    padTo8 cfg.pad_frame (addrPrefix cfg.extended_addressing addr
        ((0x10 + msg.length / 256) :: (msg.length % 256)
          :: msg.take (ffDataLen cfg.extended_addressing)))
      :: mkConsecutiveFrames cfg addr 1
          (msg.drop (ffDataLen cfg.extended_addressing))

/-- Strip the extended-addressing prefix of an incoming frame. -/
def stripAddr (ext : Bool) (f : List Nat) : List Nat :=
  if ext then f.drop 1 else f

/-- Modelled from the spec: consecutive-frame reassembly (§4.2.2) —
read frames expecting PCI `0x2N` with the expected sequence number
(wrapping modulo 16), accumulating data until the declared total length
is reached, then truncate the final frame's padding; a sequence
mismatch or non-CF frame is a protocol error. -/
def receiveCFs (ext : Bool) (total expSeq : Nat) (acc : List Nat) :
    List (List Nat) → Option (List Nat)
  | [] => if total ≤ acc.length then some (acc.take total) else none
  | f :: rest =>
    if total ≤ acc.length then some (acc.take total)
    else
      match stripAddr ext f with
      | [] => none
      | pci :: data =>
        if pci / 16 = 2 ∧ pci % 16 = expSeq then
          receiveCFs ext total ((expSeq + 1) % 16) (acc ++ data) rest
        else none

/-- Modelled from the spec: the receive path (§4.2.2) — a single frame
(PCI high nibble 0) yields its first `L` data octets where `L` is the
PCI low nibble, `1 ≤ L ≤ sfMax`, rejecting short frames; a first frame
(PCI high nibble 1) declares a 12-bit total length and carries the
first `ffDataLen` octets, after which consecutive frames are read
starting at sequence number 1; anything else is a protocol error. -/
def reassembleMsg (cfg : IsoTPSettings) : List (List Nat) → Option (List Nat)
  | [] => none
  | f :: rest =>
    match stripAddr cfg.extended_addressing f with
    | [] => none
    | pci :: data =>
      if pci / 16 = 0 then
        if 1 ≤ pci % 16 ∧ pci % 16 ≤ sfMax cfg.extended_addressing ∧
            pci % 16 ≤ data.length then
          some (data.take (pci % 16))
        else none
      else if pci / 16 = 1 then
        match data with
        | [] => none
        | len2 :: ffData =>
          receiveCFs cfg.extended_addressing ((pci % 16) * 256 + len2) 1
            (ffData.take (ffDataLen cfg.extended_addressing)) rest
      else none

/-- Padding octets appended to a frame of `n` octets: `0xCC` up to 8
when padding is on, nothing otherwise. -/
def padSuffix (pad : Bool) (n : Nat) : List Nat :=
  if pad then List.replicate (8 - n) 0xCC else []

/-! ## Concrete fixtures

Fixtures taken from the specification's concrete scenarios (standard
addressing, no padding, ECU ids 0x7E0/0x7E8), used to instantiate the
theorems below on closed inputs. -/

/-- Server options of the concrete scenarios. -/
def demoOptions : UdsServerOptions :=
  ⟨0x7E0, 0x7E8, 1000, 1000, 0, 2000, false⟩

/-- ISO-TP settings of the concrete scenarios. -/
def demoCfg : IsoTPSettings :=
  ⟨0, 0, false, false, 500000, false⟩

/-- A process state with one running server and a clear NRC ledger. -/
def demoState : FfiState :=
  ⟨true, [⟨demoOptions, demoCfg⟩], 0⟩

/-- The ReadDataByIdentifier request of scenario 1 (SID 0x22, DID
0xF190). -/
def demoRequest : UdsPayload :=
  ⟨.ReadDataByIdentifier, [0xF1, 0x90]⟩

/-- The positive ECU response of scenario 1 (`62 F1 90 31 32 33`). -/
def demoPosResponse : List (List Nat) :=
  [[0x62, 0xF1, 0x90, 0x31, 0x32, 0x33]]

/-- The 20-octet multi-frame message of scenario 2. -/
def demoMsg20 : List Nat :=
  [0x2E, 0xAA, 0xBB, 0xCC, 0xDD, 0xEE, 0xFF, 0x00, 0x11, 0x22,
   0x33, 0x44, 0x55, 0x66, 0x77, 0x88, 0x99, 0xAA, 0xBB, 0xCC]

/-! ## Helper lemmas -/

/-- No UDS Service ID is `0x3F`, so a positive-response SID
(`sid + 0x40`) never collides with the negative-response marker
`0x7F`. -/
lemma toNat_add_40_ne_7F (c : UDSCommand) : c.toNat + 0x40 ≠ 0x7F := by
  cases c <;> decide

/-- Case analysis of the server list across one public-interface call:
it is left unchanged, emptied, or freshly populated by `create` with
exactly the caller-supplied settings. -/
lemma stepOp_servers_cases (st : FfiState) (op : FfiOp) :
    (stepOp st op).servers = st.servers ∨ (stepOp st op).servers = [] ∨
    ∃ settings iso_tp_opts, op = .create settings iso_tp_opts ∧
      st.servers = [] ∧ (stepOp st op).servers = [⟨settings, iso_tp_opts⟩] := by
  cases op with
  | registerCb =>
    left
    simp only [stepOp, register_isotp_callback]
    split <;> rfl
  | destroyCb => left; rfl
  | create settings iso_tp_opts =>
    by_cases hs : st.servers = []
    · by_cases hc : st.callback_registered = false
      · left
        simp [stepOp, create_uds_server_over_isotp, hs, hc]
      · right; right
        refine ⟨settings, iso_tp_opts, rfl, hs, ?_⟩
        simp [stepOp, create_uds_server_over_isotp, hs, hc]
    · left
      simp [stepOp, create_uds_server_over_isotp, hs]
  | send payload response_require rx =>
    left
    simp only [stepOp, send_payload_uds]
    split
    · rfl
    · split
      · rfl
      · split <;> rfl
  | destroyServer =>
    simp only [stepOp, destroy_uds_server]
    split
    · left; rfl
    · right; left; rfl

/-- A positive outcome of the receive wait comes from a received message
that is the positive-response SID followed by the yielded body. -/
lemma awaitResponse_pos_mem (sid : Nat) (body : List Nat) :
    ∀ (rx : List (List Nat)) (nrc : Nat),
      awaitResponse sid nrc rx = .pos body →
      ∃ m ∈ rx, m = (sid + 0x40) :: body := by
  intro rx
  induction rx with
  | nil => intro nrc h; simp [awaitResponse] at h
  | cons m rest ih =>
    intro nrc h
    match m with
    | [] => simp [awaitResponse] at h
    | b :: tl =>
      by_cases hb : b = 0x7F
      · match tl with
        | [] => simp [awaitResponse, hb] at h
        | [x] => simp [awaitResponse, hb] at h
        | x :: n :: tl2 =>
          by_cases hn : n = 0x78
          · simp only [awaitResponse, hb, if_pos, hn, if_true] at h
            obtain ⟨m', hm', he⟩ := ih n (by simpa [hn] using h)
            exact ⟨m', List.mem_cons_of_mem _ hm', he⟩
          · simp [awaitResponse, hb, hn] at h
      · by_cases hp : b = sid + 0x40
        · refine ⟨b :: tl, List.mem_cons_self _ _, ?_⟩
          simp only [awaitResponse, hb, if_false, hp, if_true] at h
          simp_all [awaitResponse]
        · simp [awaitResponse, hb, hp] at h

/-- The receive wait never reports the `OK` result through its error
constructor. -/
lemma awaitResponse_err_ne_ok (sid : Nat) (r : DiagServerResult) (n : Nat) :
    ∀ (rx : List (List Nat)) (nrc : Nat),
      awaitResponse sid nrc rx = .err r n → r ≠ .OK := by
  intro rx
  induction rx with
  | nil =>
    intro nrc h
    simp only [awaitResponse, WaitOutcome.err.injEq] at h
    rintro rfl
    exact absurd h.1.symm (by decide)
  | cons m rest ih =>
    intro nrc h
    match m with
    | [] =>
      simp only [awaitResponse, WaitOutcome.err.injEq] at h
      rintro rfl
      exact absurd h.1.symm (by decide)
    | b :: tl =>
      by_cases hb : b = 0x7F
      · match tl with
        | [] =>
          simp only [awaitResponse, hb, if_true, WaitOutcome.err.injEq] at h
          rintro rfl
          exact absurd h.1.symm (by decide)
        | [x] =>
          simp only [awaitResponse, hb, if_true, WaitOutcome.err.injEq] at h
          rintro rfl
          exact absurd h.1.symm (by decide)
        | x :: n2 :: tl2 =>
          by_cases hn : n2 = 0x78
          · simp only [awaitResponse, hb, if_true, hn, if_pos] at h
            exact ih n2 (by simpa [hn] using h)
          · simp only [awaitResponse, hb, if_true, hn, if_false,
              WaitOutcome.err.injEq] at h
            rintro rfl
            exact absurd h.1.symm (by decide)
      · by_cases hp : b = sid + 0x40
        · have hs : ¬ sid = 63 := by omega
          simp [awaitResponse, hb, hp, hs] at h
        · simp only [awaitResponse, hb, if_false, hp,
            WaitOutcome.err.injEq] at h
          rintro rfl
          exact absurd h.1.symm (by decide)

/-- An `ECUError` outcome of the receive wait comes from a received
negative response (`0x7F`-led, its third octet the NRC) whose NRC is not
the pending code `0x78`, and reports exactly that NRC. -/
lemma awaitResponse_err_ecu (sid : Nat) (n : Nat) :
    ∀ (rx : List (List Nat)) (nrc : Nat),
      awaitResponse sid nrc rx = .err .ECUError n →
      ∃ x tl, (0x7F :: x :: n :: tl) ∈ rx ∧ n ≠ 0x78 := by
  intro rx
  induction rx with
  | nil => intro nrc h; simp [awaitResponse] at h
  | cons m rest ih =>
    intro nrc h
    match m with
    | [] => simp [awaitResponse] at h
    | b :: tl =>
      by_cases hb : b = 0x7F
      · match tl with
        | [] => simp [awaitResponse, hb] at h
        | [x] => simp [awaitResponse, hb] at h
        | x :: n2 :: tl2 =>
          by_cases hn : n2 = 0x78
          · simp only [awaitResponse, hb, if_true, hn, if_pos] at h
            obtain ⟨x', tl', hm', hne⟩ := ih n2 (by simpa [hn] using h)
            exact ⟨x', tl', List.mem_cons_of_mem _ hm', hne⟩
          · simp only [awaitResponse, hb, if_true, hn, if_false,
              WaitOutcome.err.injEq] at h
            refine ⟨x, tl2, ?_, ?_⟩
            · rw [hb, h.2]
              exact List.mem_cons_self _ _
            · rw [← h.2]; exact hn
      · by_cases hp : b = sid + 0x40
        · have hs : ¬ sid = 63 := by omega
          simp [awaitResponse, hb, hp, hs] at h
        · simp [awaitResponse, hb, hp] at h

/-- Against a stream of `k` negative `0x78` (responsePending) messages
followed by the positive response, the receive wait yields the positive
body, for every `k`. -/
lemma awaitResponse_replicate_pending (sid : Nat) (hsid : ¬ sid = 63)
    (posBody : List Nat) :
    ∀ (k nrc : Nat),
      awaitResponse sid nrc
          (List.replicate k [0x7F, sid, 0x78] ++ [(sid + 0x40) :: posBody]) =
        .pos posBody := by
  intro k
  induction k with
  | zero =>
    intro nrc
    simp [awaitResponse, hsid]
  | succ k ih =>
    intro nrc
    simpa [awaitResponse] using ih 0x78

/-! ## C1: the Service-ID enumeration -/

/-- C1: the recognized Service-ID enumeration is exactly the UDS
standard set of the spec — every `UDSCommand` enumerator is in the
listed set, the enumerators carry exactly the spec's hexadecimal codes
(in the spec's order), and the codes are pairwise distinct. -/
theorem udsCommand_enumeration_exact :
    (∀ c : UDSCommand, c ∈ udsCommandList) ∧
    udsCommandList.map UDSCommand.toNat =
      [0x10, 0x11, 0x27, 0x28, 0x3E, 0x83, 0x84, 0x85, 0x86, 0x87,
       0x22, 0x23, 0x24, 0x2A, 0x2C, 0x2E, 0x3D, 0x14, 0x19, 0x2F,
       0x31, 0x34, 0x35, 0x36, 0x37] ∧
    (udsCommandList.map UDSCommand.toNat).Nodup := by
  refine ⟨fun c => ?_, by decide, by decide⟩
  cases c <;> simp [udsCommandList]

/-! ## C4: the result enumerations -/

/-- C4: the server-layer result type is exactly the twelve listed
results and the callback-layer result type exactly the five listed
ones — every enumerator is in the respective list, the numeric codes
are the header's and pairwise distinct — and the public entry points
`create_uds_server_over_isotp` and `send_payload_uds` return results
inside the server-layer set. -/
theorem result_enumerations_exact :
    (∀ r : DiagServerResult, r ∈ diagServerResultList) ∧
    diagServerResultList.map DiagServerResult.toNat =
      [0, 1, 2, 3, 4, 5, 6, 7, 8, 98, 99, 100] ∧
    (diagServerResultList.map DiagServerResult.toNat).Nodup ∧
    (∀ r : CallbackHandlerResult, r ∈ callbackHandlerResultList) ∧
    callbackHandlerResultList.map CallbackHandlerResult.toNat =
      [0, 2, 3, 4, 5] ∧
    (callbackHandlerResultList.map CallbackHandlerResult.toNat).Nodup ∧
    (∀ st settings iso_tp_opts,
      (create_uds_server_over_isotp st settings iso_tp_opts).1 ∈
        diagServerResultList) ∧
    (∀ st payload response_require rx,
      (send_payload_uds st payload response_require rx).1 ∈
        diagServerResultList) := by
  have hall : ∀ r : DiagServerResult, r ∈ diagServerResultList := by
    intro r; cases r <;> simp [diagServerResultList]
  refine ⟨hall, by decide, by decide, fun r => ?_, by decide, by decide,
    fun st settings iso_tp_opts => hall _, fun st payload rr rx => hall _⟩
  cases r <;> simp [callbackHandlerResultList]

/-! ## C3: separation-time encoding and configuration immutability -/

/-- C3: the `st_min` octet is interpreted as the ISO 15765-2 §6.5.5.5
encoding — `0x00`–`0x7F` denote that many milliseconds, `0xF1`–`0xF9`
denote 100–900 microseconds, everything else is reserved — and the
ISO-TP configuration of a server is set once at creation and never
mutated: a public-interface call leaves the server list unchanged,
empties it, or freshly populates it with exactly the caller-supplied
configuration. -/
theorem st_min_encoding_and_config_immutable :
    (∀ v : Nat, v ≤ 0x7F → decodeStMin v = some (v * 1000)) ∧
    (∀ v : Nat, 0xF1 ≤ v → v ≤ 0xF9 →
      decodeStMin v = some ((v - 0xF0) * 100)) ∧
    (∀ v : Nat, 0x7F < v → (v < 0xF1 ∨ 0xF9 < v) → decodeStMin v = none) ∧
    (∀ (st : FfiState) (op : FfiOp),
      (stepOp st op).servers = st.servers ∨ (stepOp st op).servers = [] ∨
      ∃ settings iso_tp_opts, op = .create settings iso_tp_opts ∧
        st.servers = [] ∧
        (stepOp st op).servers = [⟨settings, iso_tp_opts⟩]) := by
  refine ⟨fun v hv => ?_, fun v h1 h2 => ?_, fun v h1 h2 => ?_,
    stepOp_servers_cases⟩
  · simp [decodeStMin, hv]
  · have hv : ¬ v ≤ 0x7F := by omega
    simp [decodeStMin, hv, h1, h2]
  · have hv : ¬ v ≤ 0x7F := by omega
    have hr : ¬ (0xF1 ≤ v ∧ v ≤ 0xF9) := by omega
    simp [decodeStMin, hv, hr]

/-- Instantiation of `st_min_encoding_and_config_immutable` on closed
inputs: 5 decodes to 5 ms, `0xF3` to 300 µs, `0xA0` is reserved, and a
`send` call leaves the demo server list unchanged. -/
theorem st_min_encoding_witness :
    decodeStMin 5 = some 5000 ∧
    decodeStMin 0xF3 = some 300 ∧
    decodeStMin 0xA0 = none ∧
    ((stepOp demoState (.send demoRequest true demoPosResponse)).servers =
        demoState.servers ∨
      (stepOp demoState (.send demoRequest true demoPosResponse)).servers = [] ∨
      ∃ settings iso_tp_opts,
        (FfiOp.send demoRequest true demoPosResponse) =
          .create settings iso_tp_opts ∧
        demoState.servers = [] ∧
        (stepOp demoState (.send demoRequest true demoPosResponse)).servers =
          [⟨settings, iso_tp_opts⟩]) :=
  ⟨st_min_encoding_and_config_immutable.1 5 (by decide),
   st_min_encoding_and_config_immutable.2.1 0xF3 (by decide) (by decide),
   st_min_encoding_and_config_immutable.2.2.1 0xA0 (by decide)
     (Or.inl (by decide)),
   st_min_encoding_and_config_immutable.2.2.2 demoState
     (.send demoRequest true demoPosResponse)⟩

/-! ## C10: write path read-only, read path caller-filled -/

/-- C10: the write path gives the driver read-only access while the
read path hands it a mutable descriptor — for every driver, invoking
the write callback leaves the core's outgoing frame exactly as passed
(its `CallbackPayload` goes by value with `const uint8_t *` data, so the
driver's outputs are a result code and its own state only), whereas a
driver exists whose read callback fills the caller descriptor with any
chosen content. -/
theorem write_path_readonly_read_path_mutable :
    (∀ (σ : Type) (d : BaseChannelCallbackHandler σ) (s : σ)
        (frame : CallbackPayload) (t : Nat),
      (invokeWriteBytes d s frame t).2.2 = frame) ∧
    (∀ target : CallbackPayload, ∃ d : BaseChannelCallbackHandler Unit,
      ∀ (s : Unit) (desc : CallbackPayload) (t : Nat),
        (invokeReadBytes d s desc t).2.2 = target) := by
  refine ⟨fun σ d s frame t => rfl, fun target => ?_⟩
  exact ⟨⟨fun s => (.OK, s), fun s => (.OK, s), fun s _ _ => (.OK, s),
    fun s _ _ => ((.OK, s), target), fun s => (.OK, s), fun s => (.OK, s),
    fun s _ _ => (.OK, s)⟩, fun s desc t => rfl⟩

/-! ## C6: the server singleton -/

/-- C6: at most one server exists per process — creation while a server
exists returns `ServerAlreadyRunning` with the state unchanged and no
callback invocation, and every sequence of public-interface calls
preserves the at-most-one-server invariant. -/
theorem server_singleton :
    (∀ (st : FfiState) (settings : UdsServerOptions)
        (iso_tp_opts : IsoTPSettings), st.servers ≠ [] →
      create_uds_server_over_isotp st settings iso_tp_opts =
        (.ServerAlreadyRunning, st, [])) ∧
    (∀ (st : FfiState) (ops : List FfiOp), st.servers.length ≤ 1 →
      (runOps st ops).servers.length ≤ 1) := by
  constructor
  · intro st settings iso_tp_opts h
    simp [create_uds_server_over_isotp, h]
  · intro st ops
    induction ops generalizing st with
    | nil => intro h; exact h
    | cons op rest ih =>
      intro h
      have hstep : (stepOp st op).servers.length ≤ 1 := by
        rcases stepOp_servers_cases st op with hc | hc | ⟨s, i, _, _, hc⟩
        · rw [hc]; exact h
        · simp [hc]
        · simp [hc]
      simpa [runOps, List.foldl_cons] using ih (stepOp st op) hstep

/-- Instantiation of `server_singleton` on closed inputs: creating over
the demo state (one server live) is rejected without side effects, and
the register–create–create sequence from the empty state ends with at
most one server. -/
theorem server_singleton_witness :
    create_uds_server_over_isotp demoState demoOptions demoCfg =
      (.ServerAlreadyRunning, demoState, []) ∧
    (runOps ⟨false, [], 0⟩
        [.registerCb, .create demoOptions demoCfg,
         .create demoOptions demoCfg]).servers.length ≤ 1 :=
  ⟨server_singleton.1 demoState demoOptions demoCfg (by decide),
   server_singleton.2 ⟨false, [], 0⟩
     [.registerCb, .create demoOptions demoCfg,
      .create demoOptions demoCfg] (by decide)⟩

/-! ## C2: the SID echo quirk -/

/-- C2: a `send_payload_uds` exchange that requires a response and
completes `Ok` returns a payload whose SID field equals the request SID
(not the request SID plus `0x40`) and whose argument buffer is the
received positive response minus the ECU's own leading SID-echo octet,
regardless of which request SID was used. -/
theorem sid_echo_quirk (st : FfiState) (payload : UdsPayload)
    (rx : List (List Nat)) (st' : FfiState) (payload' : UdsPayload)
    (h : send_payload_uds st payload true rx = (.OK, st', payload')) :
    payload'.sid = payload.sid ∧
    payload'.sid.toNat ≠ payload.sid.toNat + 0x40 ∧
    ∃ m ∈ rx, m = (payload.sid.toNat + 0x40) :: payload'.args := by
  by_cases hs : st.servers = []
  · simp [send_payload_uds, hs] at h
  · unfold send_payload_uds at h
    rw [if_neg hs] at h
    norm_num at h
    cases hw : awaitResponse payload.sid.toNat st.last_nrc rx with
    | pos body =>
      rw [hw] at h
      simp only [Prod.mk.injEq] at h
      obtain ⟨-, hst, hp⟩ := h
      subst hp
      obtain ⟨m, hm, hme⟩ := awaitResponse_pos_mem _ body rx st.last_nrc hw
      refine ⟨rfl, ?_, m, hm, hme⟩
      show payload.sid.toNat ≠ payload.sid.toNat + 0x40
      omega
    | err r n =>
      rw [hw] at h
      simp only [Prod.mk.injEq] at h
      exact absurd h.1 (awaitResponse_err_ne_ok _ r n rx st.last_nrc hw)

/-- Instantiation of `sid_echo_quirk` on the closed inputs of
scenario 1: the returned SID is `0x22` (the request SID) and the
arguments are `F1 90 31 32 33`. -/
theorem sid_echo_quirk_witness :
    (⟨UDSCommand.ReadDataByIdentifier, [0xF1, 0x90, 0x31, 0x32, 0x33]⟩ :
        UdsPayload).sid = demoRequest.sid ∧
    (⟨UDSCommand.ReadDataByIdentifier, [0xF1, 0x90, 0x31, 0x32, 0x33]⟩ :
        UdsPayload).sid.toNat ≠ demoRequest.sid.toNat + 0x40 ∧
    ∃ m ∈ demoPosResponse, m = (demoRequest.sid.toNat + 0x40) ::
      (⟨UDSCommand.ReadDataByIdentifier, [0xF1, 0x90, 0x31, 0x32, 0x33]⟩ :
        UdsPayload).args :=
  sid_echo_quirk demoState demoRequest demoPosResponse
    ⟨true, [⟨demoOptions, demoCfg⟩], 0⟩
    ⟨.ReadDataByIdentifier, [0xF1, 0x90, 0x31, 0x32, 0x33]⟩ (by decide)

/-! ## C5: the frame condition of `send_payload_uds` -/

/-- C5: on any non-`Ok` result the caller's payload (SID and argument
buffer alike) is returned exactly as passed, as it also is when no
response is required; on an `Ok` result with a required response the
argument buffer is replaced by one holding the received message minus
its leading octet; and the core's state keeps no component of the
returned buffer — only the NRC ledger can change. -/
theorem send_payload_frame_condition (st : FfiState) (payload : UdsPayload)
    (response_require : Bool) (rx : List (List Nat)) (r : DiagServerResult)
    (st' : FfiState) (payload' : UdsPayload)
    (h : send_payload_uds st payload response_require rx = (r, st', payload')) :
    (r ≠ .OK → payload' = payload) ∧
    (response_require = false → payload' = payload) ∧
    (r = .OK → response_require = true →
      payload'.sid = payload.sid ∧ ∃ m ∈ rx, payload'.args = m.drop 1) ∧
    st'.callback_registered = st.callback_registered ∧
    st'.servers = st.servers := by
  by_cases hs : st.servers = []
  · rw [send_payload_uds, if_pos hs] at h
    simp only [Prod.mk.injEq] at h
    obtain ⟨hr, hst, hp⟩ := h
    subst hr; subst hst; subst hp
    exact ⟨fun _ => rfl, fun _ => rfl, fun hok => absurd hok.symm (by decide),
      rfl, rfl⟩
  · cases response_require with
    | false =>
      rw [send_payload_uds, if_neg hs] at h
      norm_num at h
      obtain ⟨hr, hst, hp⟩ := h
      subst hr; subst hst; subst hp
      exact ⟨fun _ => rfl, fun _ => rfl,
        fun _ hcontra => Bool.noConfusion hcontra, rfl, rfl⟩
    | true =>
      rw [send_payload_uds, if_neg hs] at h
      norm_num at h
      cases hw : awaitResponse payload.sid.toNat st.last_nrc rx with
      | pos body =>
        rw [hw] at h
        simp only [Prod.mk.injEq] at h
        obtain ⟨hr, hst, hp⟩ := h
        subst hr; subst hst; subst hp
        refine ⟨fun hne => absurd rfl hne,
          fun hcontra => Bool.noConfusion hcontra,
          fun _ _ => ⟨rfl, ?_⟩, rfl, rfl⟩
        obtain ⟨m, hm, hme⟩ := awaitResponse_pos_mem _ body rx st.last_nrc hw
        exact ⟨m, hm, by simp [hme]⟩
      | err rr n =>
        rw [hw] at h
        simp only [Prod.mk.injEq] at h
        obtain ⟨hr, hst, hp⟩ := h
        subst hr; subst hst; subst hp
        exact ⟨fun _ => rfl, fun _ => rfl,
          fun hok => absurd hok (awaitResponse_err_ne_ok _ rr n rx st.last_nrc hw),
          rfl, rfl⟩

/-- Instantiation of `send_payload_frame_condition` on the closed inputs
of scenario 5 (no server): the result is `NoDiagnosticServer` and the
payload comes back untouched. -/
theorem send_payload_frame_condition_witness :
    (DiagServerResult.NoDiagnosticServer ≠ .OK → demoRequest = demoRequest) ∧
    (true = false → demoRequest = demoRequest) ∧
    (DiagServerResult.NoDiagnosticServer = .OK → true = true →
      demoRequest.sid = demoRequest.sid ∧
      ∃ m ∈ demoPosResponse, demoRequest.args = m.drop 1) ∧
    (⟨true, [], 0⟩ : FfiState).callback_registered =
      (⟨true, [], 0⟩ : FfiState).callback_registered ∧
    (⟨true, [], 0⟩ : FfiState).servers = (⟨true, [], 0⟩ : FfiState).servers :=
  send_payload_frame_condition ⟨true, [], 0⟩ demoRequest true demoPosResponse
    .NoDiagnosticServer ⟨true, [], 0⟩ demoRequest (by decide)

/-! ## C7: the NRC ledger -/

/-- C7 (amended): the NRC ledger is set by every negative response and
cleared on `Ok` — when `send_payload_uds` returns `ECUError`,
`get_ecu_error_code` reads exactly the NRC octet of a received negative
response (an octet other than `0x78`), and when it returns `Ok` the
ledger reads `0x00`.  (After a non-`Ok`, non-`ECUError` result the
ledger may retain a stale NRC — see the counterexample.) -/
theorem nrc_ledger_amended (st : FfiState) (payload : UdsPayload)
    (rx : List (List Nat)) (r : DiagServerResult) (st' : FfiState)
    (payload' : UdsPayload)
    (h : send_payload_uds st payload true rx = (r, st', payload')) :
    (r = .ECUError →
      ∃ x tl, (0x7F :: x :: (get_ecu_error_code st') :: tl) ∈ rx ∧
        get_ecu_error_code st' ≠ 0x78) ∧
    (r = .OK → get_ecu_error_code st' = 0) := by
  by_cases hs : st.servers = []
  · rw [send_payload_uds, if_pos hs] at h
    simp only [Prod.mk.injEq] at h
    obtain ⟨hr, hst, hp⟩ := h
    subst hr
    exact ⟨fun hc => DiagServerResult.noConfusion hc,
      fun hc => DiagServerResult.noConfusion hc⟩
  · rw [send_payload_uds, if_neg hs] at h
    norm_num at h
    cases hw : awaitResponse payload.sid.toNat st.last_nrc rx with
    | pos body =>
      rw [hw] at h
      simp only [Prod.mk.injEq] at h
      obtain ⟨hr, hst, hp⟩ := h
      subst hr; subst hst
      exact ⟨fun hc => DiagServerResult.noConfusion hc, fun _ => rfl⟩
    | err rr n =>
      rw [hw] at h
      simp only [Prod.mk.injEq] at h
      obtain ⟨hr, hst, hp⟩ := h
      subst hr; subst hst
      constructor
      · rintro rfl
        obtain ⟨x, tl, hm, hne⟩ := awaitResponse_err_ecu _ n rx st.last_nrc hw
        exact ⟨x, tl, hm, hne⟩
      · intro hok
        exact absurd hok (awaitResponse_err_ne_ok _ rr n rx st.last_nrc hw)

/-- Instantiation of `nrc_ledger_amended` on the closed inputs of
scenario 3: after the negative response `7F 22 13` the ledger reads the
NRC `0x13`. -/
theorem nrc_ledger_amended_witness :
    ∃ x tl,
      (0x7F :: x ::
          (get_ecu_error_code (⟨true, [⟨demoOptions, demoCfg⟩], 0x13⟩ :
            FfiState)) :: tl) ∈ [[0x7F, 0x22, 0x13]] ∧
      get_ecu_error_code (⟨true, [⟨demoOptions, demoCfg⟩], 0x13⟩ :
        FfiState) ≠ 0x78 :=
  (nrc_ledger_amended demoState demoRequest [[0x7F, 0x22, 0x13]] .ECUError
    ⟨true, [⟨demoOptions, demoCfg⟩], 0x13⟩ demoRequest (by decide)).1 rfl

/-- Counterexample to C7 as stated: after an `ECUError` with NRC `0x13`
a further exchange ends in `WrongMessage` — the last result is not
`ECUError`, yet `get_ecu_error_code` reads the stale `0x13`, not
`0x00`. -/
theorem nrc_ledger_counterexample :
    (send_payload_uds (send_payload_uds demoState demoRequest true
        [[0x7F, 0x22, 0x13]]).2.1 demoRequest true [[0x99]]).1 =
      .WrongMessage ∧
    (send_payload_uds (send_payload_uds demoState demoRequest true
        [[0x7F, 0x22, 0x13]]).2.1 demoRequest true [[0x99]]).1 ≠ .ECUError ∧
    get_ecu_error_code (send_payload_uds (send_payload_uds demoState
        demoRequest true [[0x7F, 0x22, 0x13]]).2.1 demoRequest true
        [[0x99]]).2.1 = 0x13 := by
  decide

/-! ## C9: the response-pending loop -/

/-- C9: a negative response with NRC `0x78` is recovered locally — an
ECU that replies `7F <SID> 78` any number `k` of times before the
positive response makes `send_payload_uds` return `Ok` with the positive
body, for every `k`; a negative response with any other NRC makes it
return `ECUError` with that NRC in the ledger. -/
theorem response_pending_recovered :
    (∀ (k : Nat) (st : FfiState) (payload : UdsPayload) (posBody : List Nat),
      st.servers ≠ [] →
      send_payload_uds st payload true
          (List.replicate k [0x7F, payload.sid.toNat, 0x78] ++
            [(payload.sid.toNat + 0x40) :: posBody]) =
        (.OK, { st with last_nrc := 0 },
          { sid := payload.sid, args := posBody })) ∧
    (∀ (st : FfiState) (payload : UdsPayload) (x n : Nat) (tl : List Nat)
        (rest : List (List Nat)), st.servers ≠ [] → n ≠ 0x78 →
      send_payload_uds st payload true ((0x7F :: x :: n :: tl) :: rest) =
        (.ECUError, { st with last_nrc := n }, payload)) := by
  constructor
  · intro k st payload posBody hs
    have hsid : ¬ payload.sid.toNat = 63 := by
      have := toNat_add_40_ne_7F payload.sid
      omega
    rw [send_payload_uds, if_neg hs]
    norm_num
    rw [awaitResponse_replicate_pending payload.sid.toNat hsid posBody k
      st.last_nrc]
  · intro st payload x n tl rest hs hn
    rw [send_payload_uds, if_neg hs]
    norm_num
    simp [awaitResponse, hn]

/-- Instantiation of `response_pending_recovered` on closed inputs:
three pending replies then success yield `Ok` with the positive body,
and a single `7F 22 13` yields `ECUError` with ledger `0x13`. -/
theorem response_pending_recovered_witness :
    send_payload_uds demoState demoRequest true
        (List.replicate 3 [0x7F, demoRequest.sid.toNat, 0x78] ++
          [(demoRequest.sid.toNat + 0x40) :: [0x31]]) =
      (.OK, { demoState with last_nrc := 0 },
        { sid := demoRequest.sid, args := [0x31] }) ∧
    send_payload_uds demoState demoRequest true
        ((0x7F :: 0x22 :: 0x13 :: []) :: []) =
      (.ECUError, { demoState with last_nrc := 0x13 }, demoRequest) :=
  ⟨response_pending_recovered.1 3 demoState demoRequest [0x31] (by decide),
   response_pending_recovered.2 demoState demoRequest 0x22 0x13 [] []
     (by decide) (by decide)⟩

/-! ## C8: ISO-TP round trip -/

/-- Padding a frame that is already 8 octets long changes nothing. -/
lemma padTo8_full (pad : Bool) (f : List Nat) (h : f.length = 8) :
    padTo8 pad f = f := by
  cases pad <;> simp [padTo8, h]

/-- An incoming frame built by prefixing and padding, after stripping
the address prefix, is the original content followed by the padding
suffix. -/
lemma stripAddr_padTo8_addrPrefix (ext pad : Bool) (addr : Nat)
    (l : List Nat) :
    stripAddr ext (padTo8 pad (addrPrefix ext addr l)) =
      l ++ padSuffix pad (addrPrefix ext addr l).length := by
  cases ext <;> cases pad <;>
    simp [stripAddr, padTo8, addrPrefix, padSuffix, List.cons_append]

/-- The length of the address prefix is one octet when extended
addressing is on. -/
lemma addrPrefix_length (ext : Bool) (addr : Nat) (l : List Nat) :
    (addrPrefix ext addr l).length = (if ext then 1 else 0) + l.length := by
  cases ext <;> simp [addrPrefix, Nat.add_comm]

/-- A full (8-octet) frame has no padding suffix. -/
lemma padSuffix_eight (pad : Bool) : padSuffix pad 8 = [] := by
  cases pad <;> simp [padSuffix]

/-- Reassembling the consecutive frames produced by segmentation
recovers the remaining data: starting from an accumulator that already
holds the message head, reading the CF train built from the message
tail (any sequence number below 16, any padding and addressing mode)
yields head ++ tail. -/
lemma receiveCFs_mkConsecutiveFrames (cfg : IsoTPSettings) (addr : Nat) :
    ∀ (n : Nat) (rest acc : List Nat) (seq total : Nat),
      rest.length ≤ n → seq < 16 → rest ≠ [] →
      total = acc.length + rest.length →
      receiveCFs cfg.extended_addressing total seq acc
          (mkConsecutiveFrames cfg addr seq rest) = some (acc ++ rest) := by
  intro n
  induction n with
  | zero =>
    intro rest acc seq total hn h16 hne htot
    cases rest with
    | nil => exact absurd rfl hne
    | cons a l => simp at hn
  | succ n ih =>
    intro rest acc seq total hn h16 hne htot
    have hrest1 : 1 ≤ rest.length := by
      cases rest with
      | nil => exact absurd rfl hne
      | cons a l => simp
    have hcf : cfDataLen cfg.extended_addressing = 6 ∨
        cfDataLen cfg.extended_addressing = 7 := by
      cases cfg.extended_addressing <;> simp [cfDataLen]
    rw [mkConsecutiveFrames, dif_neg hne]
    rw [receiveCFs]
    rw [if_neg (by omega)]
    rw [stripAddr_padTo8_addrPrefix]
    simp only [List.cons_append]
    rw [if_pos ⟨by omega, by omega⟩]
    by_cases hsmall : rest.length ≤ cfDataLen cfg.extended_addressing
    · rw [List.take_of_length_le hsmall,
        List.drop_eq_nil_of_le hsmall]
      rw [mkConsecutiveFrames, dif_pos rfl]
      rw [receiveCFs]
      rw [if_pos (by simp only [List.length_append]; omega)]
      have hassoc : acc ++ (rest ++
          padSuffix cfg.pad_frame
            (addrPrefix cfg.extended_addressing addr
              ((32 + seq) :: rest)).length) =
          (acc ++ rest) ++
          padSuffix cfg.pad_frame
            (addrPrefix cfg.extended_addressing addr
              ((32 + seq) :: rest)).length := by
        rw [List.append_assoc]
      rw [hassoc]
      have hlen : total = (acc ++ rest).length := by
        simp only [List.length_append]
        omega
      rw [hlen, List.take_left]
    · have htk : (rest.take (cfDataLen cfg.extended_addressing)).length =
          cfDataLen cfg.extended_addressing := by
        simp [List.length_take]; omega
      have hfull : (addrPrefix cfg.extended_addressing addr
          ((32 + seq) :: rest.take (cfDataLen cfg.extended_addressing))).length
            = 8 := by
        rw [addrPrefix_length]
        cases hext : cfg.extended_addressing <;>
          simp [hext, cfDataLen] at htk ⊢ <;> omega
      rw [hfull, padSuffix_eight, List.append_nil]
      have hdlen : (rest.drop (cfDataLen cfg.extended_addressing)).length =
          rest.length - cfDataLen cfg.extended_addressing :=
        List.length_drop _ _
      have hres := ih (rest.drop (cfDataLen cfg.extended_addressing))
        (acc ++ rest.take (cfDataLen cfg.extended_addressing))
        ((seq + 1) % 16) total
        (by omega)
        (Nat.mod_lt _ (by omega))
        (by
          intro hc
          rw [hc] at hdlen
          simp at hdlen
          omega)
        (by simp [htk]; omega)
      rw [hres, List.append_assoc, List.take_append_drop]

/-- C8: ISO-TP segmentation followed by reassembly is the identity —
for every message of 1 to 4095 octets and every ISO-TP configuration
(any block size, separation time, addressing mode and padding choice),
reassembling the segmented frame train yields the original message. -/
theorem isotp_roundtrip (cfg : IsoTPSettings) (addr : Nat)
    (msg : List Nat) (h1 : 1 ≤ msg.length) (h2 : msg.length ≤ 4095) :
    reassembleMsg cfg (segmentMsg cfg addr msg) = some msg := by
  have hsf7 : sfMax cfg.extended_addressing = 6 ∨
      sfMax cfg.extended_addressing = 7 := by
    cases cfg.extended_addressing <;> simp [sfMax]
  by_cases hsf : msg.length ≤ sfMax cfg.extended_addressing
  · rw [segmentMsg, if_pos hsf]
    rw [reassembleMsg]
    rw [stripAddr_padTo8_addrPrefix]
    simp only [List.cons_append]
    rw [if_pos (by omega)]
    rw [if_pos ⟨by omega, by omega,
      by simp only [List.length_append]; omega⟩]
    have hmod : msg.length % 16 = msg.length := Nat.mod_eq_of_lt (by omega)
    rw [hmod]
    exact congrArg some (List.take_left msg _)
  · rw [segmentMsg, if_neg hsf]
    rw [reassembleMsg]
    rw [stripAddr_padTo8_addrPrefix]
    have hff : ffDataLen cfg.extended_addressing + 1 =
        sfMax cfg.extended_addressing := by
      cases cfg.extended_addressing <;> simp [ffDataLen, sfMax]
    have htkff : (msg.take (ffDataLen cfg.extended_addressing)).length =
        ffDataLen cfg.extended_addressing := by
      simp [List.length_take]; omega
    have hffull : (addrPrefix cfg.extended_addressing addr
        ((0x10 + msg.length / 256) :: (msg.length % 256) ::
          msg.take (ffDataLen cfg.extended_addressing))).length = 8 := by
      rw [addrPrefix_length]
      cases hext : cfg.extended_addressing <;>
        simp [hext, ffDataLen, sfMax] at htkff hff ⊢ <;> omega
    simp only [List.cons_append]
    rw [hffull, padSuffix_eight, List.append_nil]
    have hdiv : msg.length / 256 ≤ 15 := by omega
    rw [if_neg (by omega), if_pos (by omega)]
    simp only [List.take_take, Nat.min_self]
    have hpcim : (0x10 + msg.length / 256) % 16 = msg.length / 256 := by
      omega
    rw [hpcim]
    have htotal : msg.length / 256 * 256 + msg.length % 256 = msg.length := by
      omega
    rw [htotal]
    have hres := receiveCFs_mkConsecutiveFrames cfg addr
      (msg.drop (ffDataLen cfg.extended_addressing)).length
      (msg.drop (ffDataLen cfg.extended_addressing))
      (msg.take (ffDataLen cfg.extended_addressing)) 1 msg.length
      (le_refl _) (by omega)
      (by
        intro hc
        have := List.length_drop (ffDataLen cfg.extended_addressing) msg
        rw [hc] at this
        simp at this
        omega)
      (by
        have := List.length_drop (ffDataLen cfg.extended_addressing) msg
        omega)
    rw [hres, List.take_append_drop]

/-- Instantiation of `isotp_roundtrip` on the closed inputs of
scenario 2: the 20-octet message survives segmentation and reassembly
under the demo configuration. -/
theorem isotp_roundtrip_witness :
    reassembleMsg demoCfg (segmentMsg demoCfg 0 demoMsg20) =
      some demoMsg20 :=
  isotp_roundtrip demoCfg 0 demoMsg20 (by decide) (by decide)

end EcuDiag
